import Mathlib

/-!
Verification of the archon batch-submitter core against its specification.

The definitions below are a shallow embedding of the Rust sources:
  * `src/state.rs`   — `State`, `BlockUpdate`, `State::add_block`, `State::clear`
  * `src/channels.rs`— `ChannelManager::tx_data`, `ChannelManager::execute`
                       (one loop iteration), `ChannelManager::process_blocks`
                       (one polling cycle and the per-fetched-block step)
  * `src/transactions.rs` — `TransactionManager::craft_transaction`,
                       `TransactionManager::send_transaction`, and the wallet
                       construction in `TransactionManager::execute`
  * `src/rollup.rs`  — `SyncStatus`
  * `src/errors.rs`  — the error enums

32-byte hashes, addresses and 256-bit quantities are modelled as `Nat`
(they are only compared for equality and carried around, never operated on
arithmetically), byte strings as `List Nat`.  External RPC endpoints are
modelled as explicit oracle functions passed to the embedded operations.
-/

namespace Archon

/-- A 32-byte hash (ethers `H256`), used only as an opaque comparable token. -/
abbrev H256 := Nat

/-- Raw byte data (`bytes::Bytes`). -/
abbrev Bytes := List Nat

/-- An L2 block body, ethers `Block<Transaction>` restricted to the fields the
program reads: `hash : Option<H256>`, `parent_hash : H256`,
`number : Option<U64>` and the transaction payloads (opaque here). -/
structure Block where
  hash : Option H256
  parent_hash : H256
  number : Option Nat
  transactions : List Nat
deriving DecidableEq

/-- `BlockUpdate` from `src/state.rs`. -/
inductive BlockUpdate
  | Added
  | Reorg
  | MissingBlockHash
deriving DecidableEq

/-- `State` from `src/state.rs`: the internal block store and the current tip. -/
structure State where
  blocks : List Block
  tip : Option H256
deriving DecidableEq

/-- `State::new` / `State::default`: empty store, absent tip. -/
def State.new : State := ⟨[], none⟩

/-- `State::add_block` (src/state.rs lines 42-52), translated clause by clause:
if the tip is present and differs from the block's parent hash, return `Reorg`
with the state untouched; otherwise require the block hash (else
`MissingBlockHash`, state untouched); otherwise set the tip to the block hash,
push the block and return `Added`. -/
def State.add_block (s : State) (block : Block) : BlockUpdate × State :=
  if s.tip.isSome ∧ s.tip ≠ some block.parent_hash then
    (BlockUpdate.Reorg, s)
  else
    match block.hash with
    | some h => (BlockUpdate.Added, { blocks := s.blocks ++ [block], tip := some h })
    | none => (BlockUpdate.MissingBlockHash, s)

/-- `State::clear` (src/state.rs lines 55-58): drop all blocks, reset the tip. -/
def State.clear (_s : State) : State := ⟨[], none⟩

/-- Push a list of blocks one by one with `State.add_block`, collecting every
returned `BlockUpdate` together with the final state. -/
def runBlocks (s : State) : List Block → List BlockUpdate × State
  | [] => ([], s)
  | b :: bs =>
    let r := s.add_block b
    let rest := runBlocks r.2 bs
    (r.1 :: rest.1, rest.2)

/-- The tip after appending every block of the list on top of tip `t`. -/
def lastTip (t : Option H256) : List Block → Option H256
  | [] => t
  | b :: bs => lastTip b.hash bs

/-- The list of blocks forms a parent-hash chain rooted at tip `t`: the first
block either starts a fresh store (`t = none`) or extends `t`, every block
carries a hash, and each block's hash is the next block's parent hash. -/
def chainFrom (t : Option H256) : List Block → Prop
  | [] => True
  | b :: bs => (t = none ∨ t = some b.parent_hash) ∧ b.hash.isSome ∧ chainFrom b.hash bs

lemma add_block_ok (s : State) (b : Block) (h : H256)
    (htip : s.tip = none ∨ s.tip = some b.parent_hash) (hh : b.hash = some h) :
    s.add_block b = (BlockUpdate.Added, { blocks := s.blocks ++ [b], tip := some h }) := by
  unfold State.add_block
  rcases htip with ht | ht <;> rw [ht] <;> simp [hh]

lemma add_block_reorg (s : State) (b : Block) (t : H256)
    (ht : s.tip = some t) (hne : b.parent_hash ≠ t) :
    s.add_block b = (BlockUpdate.Reorg, s) := by
  unfold State.add_block
  rw [ht]
  simp [Ne.symm hne]

lemma add_block_missing (s : State) (b : Block)
    (htip : s.tip = none ∨ s.tip = some b.parent_hash) (hh : b.hash = none) :
    s.add_block b = (BlockUpdate.MissingBlockHash, s) := by
  unfold State.add_block
  rcases htip with ht | ht <;> rw [ht] <;> simp [hh]

lemma runBlocks_chain : ∀ (bs : List Block) (s : State), chainFrom s.tip bs →
    runBlocks s bs = (List.replicate bs.length BlockUpdate.Added,
      { blocks := s.blocks ++ bs, tip := lastTip s.tip bs }) := by
  intro bs
  induction bs with
  | nil =>
    intro s _
    simp [runBlocks, lastTip]
  | cons b bs ih =>
    intro s hc
    obtain ⟨htip, hh, hrest⟩ := hc
    obtain ⟨h, hh2⟩ := Option.isSome_iff_exists.mp hh
    have hstep := add_block_ok s b h htip hh2
    have htl : lastTip s.tip (b :: bs) = lastTip b.hash bs := rfl
    simp only [runBlocks, hstep, htl]
    rw [ih { blocks := s.blocks ++ [b], tip := some h } (by rw [← hh2] at *; exact hrest)]
    simp [List.replicate, lastTip, hh2]

lemma runBlocks_append (xs ys : List Block) : ∀ s : State, runBlocks s (xs ++ ys) =
    ((runBlocks s xs).1 ++ (runBlocks (runBlocks s xs).2 ys).1,
     (runBlocks (runBlocks s xs).2 ys).2) := by
  induction xs with
  | nil => intro s; simp [runBlocks]
  | cons x xs ih => intro s; simp [runBlocks, ih]

lemma chainFrom_of_getElem : ∀ (l : List Block) (t : Option H256),
    (∀ b ∈ l, b.hash.isSome) →
    (∀ k, (hk : k + 1 < l.length) → l[k].hash = some (l[k + 1]).parent_hash) →
    (t = none ∨ ∀ (hl : 0 < l.length), t = some (l[0]).parent_hash) →
    chainFrom t l := by
  intro l
  induction l with
  | nil => intro t _ _ _; trivial
  | cons b rest ih =>
    intro t hpres hlink ht
    refine ⟨?_, hpres b (List.mem_cons_self b rest), ?_⟩
    · rcases ht with h | h
      · exact Or.inl h
      · exact Or.inr (by simpa using h (by simp))
    · apply ih b.hash
      · intro c hc
        exact hpres c (List.mem_cons_of_mem b hc)
      · intro k hk
        have hk2 : k + 1 + 1 < (b :: rest).length := by simp at hk ⊢; omega
        have hstep := hlink (k + 1) hk2
        simpa using hstep
      · refine Or.inr ?_
        intro hl
        have h1 : 0 + 1 < (b :: rest).length := by simp; omega
        have hstep := hlink 0 h1
        simpa using hstep

lemma chainFrom_getElem : ∀ (l : List Block) (t : Option H256), chainFrom t l →
    ∀ k, (hk : k + 1 < l.length) → l[k].hash = some (l[k + 1]).parent_hash := by
  intro l
  induction l with
  | nil => intro t _ k hk; simp at hk
  | cons b rest ih =>
    intro t hc k hk
    obtain ⟨_, hsome, hrest⟩ := hc
    cases k with
    | zero =>
      cases rest with
      | nil => simp at hk
      | cons c r2 =>
        obtain ⟨hc1, _, _⟩ := hrest
        rcases hc1 with h | h
        · rw [h] at hsome; simp at hsome
        · simpa using h
    | succ k2 =>
      have hk2 : k2 + 1 < rest.length := by simp at hk; omega
      have hstep := ih b.hash hrest k2 hk2
      simpa using hstep

lemma lastTip_getLast : ∀ (l : List Block) (t : Option H256),
    lastTip t l = match l.getLast? with
      | none => t
      | some b => b.hash := by
  intro l
  induction l with
  | nil => intro t; rfl
  | cons b rest ih =>
    intro t
    cases rest with
    | nil => rfl
    | cons c r2 =>
      rw [show lastTip t (b :: c :: r2) = lastTip b.hash (c :: r2) from rfl, ih b.hash,
        List.getLast?_cons_cons]
      cases h : (c :: r2).getLast? with
      | none => simp at h
      | some x => rfl

/-- Claim C1 (amended): pushing a sequence of hashed blocks into an initially
empty `State` through `add_block`, if `i + 1` is the first index at which a
block's parent hash differs from the previous block's hash, every call before
index `i + 1` returns `Added` and the call for block `i + 1` returns `Reorg`.
It is the first call returning `Reorg`; because the rejected block leaves the
state unchanged, later calls may return `Reorg` again (see the
counterexample), which is the only amendment to the claim. -/
theorem reorg_detection (bs : List Block) (i : Nat) (hi : i + 1 < bs.length)
    (hpres : ∀ b ∈ bs, b.hash.isSome)
    (hlink : ∀ k, (hk : k < i) → bs[k].hash = some (bs[k + 1]).parent_hash)
    (hmism : bs[i].hash ≠ some (bs[i + 1]).parent_hash) :
    (∀ j, j ≤ i → ((runBlocks State.new bs).1)[j]? = some BlockUpdate.Added) ∧
    ((runBlocks State.new bs).1)[i + 1]? = some BlockUpdate.Reorg := by
  have hlenpre : (bs.take (i + 1)).length = i + 1 := by
    rw [List.length_take]; omega
  have hchain : chainFrom State.new.tip (bs.take (i + 1)) := by
    apply chainFrom_of_getElem
    · intro b hb
      exact hpres b (List.take_subset _ _ hb)
    · intro k hk
      rw [List.getElem_take, List.getElem_take]
      exact hlink k (by rw [hlenpre] at hk; omega)
    · exact Or.inl rfl
  have hrun := runBlocks_chain (bs.take (i + 1)) State.new hchain
  have hdec := runBlocks_append (bs.take (i + 1)) (bs.drop (i + 1)) State.new
  rw [List.take_append_drop] at hdec
  have h1 : (runBlocks State.new (bs.take (i + 1))).1 =
      List.replicate (i + 1) BlockUpdate.Added := by
    rw [hrun, hlenpre]
  have h2 : (runBlocks State.new (bs.take (i + 1))).2 =
      { blocks := bs.take (i + 1), tip := lastTip none (bs.take (i + 1)) } := by
    rw [hrun]
    simp [State.new]
  have htake_i : (bs.take (i + 1))[i]? = some bs[i] := by
    rw [List.getElem?_eq_getElem (by rw [hlenpre]; omega), List.getElem_take]
  have htip : lastTip (none : Option H256) (bs.take (i + 1)) = bs[i].hash := by
    rw [lastTip_getLast, List.getLast?_eq_getElem?]
    have hidx : (bs.take (i + 1))[(bs.take (i + 1)).length - 1]? = some bs[i] := by
      simp only [hlenpre, Nat.add_sub_cancel]
      exact htake_i
    rw [hidx]
  constructor
  · intro j hj
    rw [hdec, List.getElem?_append, if_pos (by rw [h1]; simp; omega), h1,
      List.getElem?_eq_getElem (by simp; omega), List.getElem_replicate]
  · rw [hdec, List.getElem?_append, if_neg (by rw [h1]; simp), h1]
    simp only [List.length_replicate, Nat.sub_self]
    rw [h2, List.drop_eq_getElem_cons hi]
    obtain ⟨v, hv⟩ := Option.isSome_iff_exists.mp (hpres bs[i] (List.getElem_mem _))
    have hne : (bs[i + 1]).parent_hash ≠ v := by
      intro he
      exact hmism (by rw [hv, he])
    have hstep := add_block_reorg
      { blocks := bs.take (i + 1), tip := lastTip none (bs.take (i + 1)) }
      (bs[i + 1]) v (by rw [show (State.mk (bs.take (i + 1)) (lastTip none (bs.take (i + 1)))).tip = lastTip none (bs.take (i + 1)) from rfl, htip, hv]) hne
    simp [runBlocks, hstep]

def cb0 : Block := ⟨some 201, 200, some 1, []⟩
def cb1 : Block := ⟨some 202, 777, some 2, []⟩
def cb2 : Block := ⟨some 203, 888, some 3, []⟩

/-- Counterexample to claim C1 as stated: in the sequence `[cb0, cb1, cb2]`
the first parent-hash mismatch is at index 1 (`cb1.parent_hash = 777` while
`cb0.hash = some 201`), yet `add_block` returns `Reorg` not only on the call
for index 1 but also on the later call for index 2, because the reorg leaves
the tip stuck at `some 201` and `cb2.parent_hash = 888` also differs; so the
reorg indication is not returned exactly once at the first mismatch. -/
theorem reorg_detection_cex :
    cb0.hash = some 201 ∧ cb1.parent_hash = 777 ∧ cb2.parent_hash = 888 ∧
    (runBlocks State.new [cb0, cb1, cb2]).1 =
      [BlockUpdate.Added, BlockUpdate.Reorg, BlockUpdate.Reorg] := by
  decide

def wb0 : Block := ⟨some 101, 100, some 1, []⟩
def wb1 : Block := ⟨some 102, 101, some 2, []⟩
def wb2 : Block := ⟨some 103, 999, some 3, []⟩

/-- Witness for the amended C1 theorem at a concrete three-block sequence
whose first parent-hash mismatch is at index 2. -/
theorem reorg_detection_witness :
    (∀ j, j ≤ 1 → ((runBlocks State.new [wb0, wb1, wb2]).1)[j]? = some BlockUpdate.Added) ∧
    ((runBlocks State.new [wb0, wb1, wb2]).1)[1 + 1]? = some BlockUpdate.Reorg := by
  refine reorg_detection [wb0, wb1, wb2] 1 (by decide) (by decide) ?_ (by decide)
  intro k hk
  have hk0 : k = 0 := by omega
  subst hk0
  show wb0.hash = some wb1.parent_hash
  decide

lemma chainFrom_of_all_added : ∀ (bs : List Block) (s : State),
    (∀ u ∈ (runBlocks s bs).1, u = BlockUpdate.Added) → chainFrom s.tip bs := by
  intro bs
  induction bs with
  | nil => intro s _; trivial
  | cons b rest ih =>
    intro s hall
    have h0 : (s.add_block b).1 = BlockUpdate.Added := by
      apply hall
      simp [runBlocks]
    by_cases hc : s.tip.isSome ∧ s.tip ≠ some b.parent_hash
    · rw [show s.add_block b = (BlockUpdate.Reorg, s) from by
        unfold State.add_block; rw [if_pos hc]] at h0
      cases h0
    · push_neg at hc
      have htip : s.tip = none ∨ s.tip = some b.parent_hash := by
        cases h : s.tip with
        | none => exact Or.inl rfl
        | some t => exact Or.inr (by rw [← h]; exact hc (by rw [h]; rfl))
      cases hb : b.hash with
      | none =>
        rw [add_block_missing s b htip hb] at h0
        cases h0
      | some hsh =>
        have hstep := add_block_ok s b hsh htip hb
        refine ⟨htip, by rw [hb]; rfl, ?_⟩
        rw [hb]
        apply ih { blocks := s.blocks ++ [b], tip := some hsh }
        intro u hu
        apply hall
        simp only [runBlocks, hstep]
        exact List.mem_cons_of_mem _ hu

/-- Claim C3: after any sequence of `add_block` calls that all succeed (every
returned update is `Added`), the final state stores exactly the pushed blocks,
its tip equals the hash of the last appended block, every adjacent pair of
stored blocks is parent-linked, and `clear` yields an empty store with an
absent tip. -/
theorem state_invariants (bs : List Block)
    (hall : ∀ u ∈ (runBlocks State.new bs).1, u = BlockUpdate.Added) :
    (runBlocks State.new bs).2.blocks = bs ∧
    ((runBlocks State.new bs).2.tip =
      match bs.getLast? with
      | none => none
      | some b => b.hash) ∧
    (∀ k, (hk : k + 1 < (runBlocks State.new bs).2.blocks.length) →
      ((runBlocks State.new bs).2.blocks[k]).hash =
        some (((runBlocks State.new bs).2.blocks[k + 1]).parent_hash)) ∧
    ((runBlocks State.new bs).2.clear.blocks = [] ∧
      (runBlocks State.new bs).2.clear.tip = none) := by
  have hchain := chainFrom_of_all_added bs State.new hall
  have hrun := runBlocks_chain bs State.new hchain
  have hstate : (runBlocks State.new bs).2 = { blocks := bs, tip := lastTip none bs } := by
    rw [hrun]
    rfl
  rw [hstate]
  refine ⟨rfl, lastTip_getLast bs none, ?_, rfl, rfl⟩
  intro k hk
  exact chainFrom_getElem bs none hchain k hk

/-- Witness for C3 at a concrete two-block chain. -/
theorem state_invariants_witness :
    (runBlocks State.new [wb0, wb1]).2.blocks = [wb0, wb1] ∧
    ((runBlocks State.new [wb0, wb1]).2.tip =
      match [wb0, wb1].getLast? with
      | none => none
      | some b => b.hash) ∧
    (∀ k, (hk : k + 1 < (runBlocks State.new [wb0, wb1]).2.blocks.length) →
      ((runBlocks State.new [wb0, wb1]).2.blocks[k]).hash =
        some (((runBlocks State.new [wb0, wb1]).2.blocks[k + 1]).parent_hash)) ∧
    ((runBlocks State.new [wb0, wb1]).2.clear.blocks = [] ∧
      (runBlocks State.new [wb0, wb1]).2.clear.tip = none) :=
  state_invariants [wb0, wb1] (by decide)

def preBlk : Block := ⟨some 5, 4, some 1, []⟩
def noHashBlk : Block := ⟨none, 7, some 2, []⟩

/-- Counterexample to claim C8 as stated: from the reachable state obtained by
pushing `preBlk` (tip `some 5`), appending `noHashBlk` — whose hash is absent
and whose parent hash 7 differs from the tip — returns `Reorg`, not
`MissingBlockHash`: the tip check precedes the hash check. -/
theorem missing_hash_cex :
    noHashBlk.hash = none ∧
    (runBlocks State.new [preBlk]).2 = State.mk [preBlk] (some 5) ∧
    ((State.mk [preBlk] (some 5)).add_block noHashBlk).1 = BlockUpdate.Reorg ∧
    ((State.mk [preBlk] (some 5)).add_block noHashBlk).1 ≠ BlockUpdate.MissingBlockHash := by
  decide

/-- Claim C8 (amended): appending an L2 block whose hash field is absent
returns `MissingBlockHash` and leaves the state (block sequence and tip)
unchanged, provided the tip check passes — the tip is absent or equals the
block's parent hash; when a present tip differs from the block's parent hash,
`Reorg` is returned instead (state also unchanged). -/
theorem missing_hash_rejected (s : State) (b : Block)
    (htip : s.tip = none ∨ s.tip = some b.parent_hash) (hh : b.hash = none) :
    s.add_block b = (BlockUpdate.MissingBlockHash, s) :=
  add_block_missing s b htip hh

/-- Witness for the amended C8 theorem: appending a hashless block to the
empty state returns `MissingBlockHash` and leaves the state unchanged. -/
theorem missing_hash_rejected_witness :
    State.new.add_block noHashBlk = (BlockUpdate.MissingBlockHash, State.new) :=
  missing_hash_rejected State.new noHashBlk (Or.inl rfl) rfl

/-- Claim C10: whenever the tip is present and a block's parent hash differs
from it, `add_block` returns `Reorg` and leaves the state (block sequence and
tip) unchanged — the block's hash field is arbitrary and may even be absent,
so the reorg check takes precedence over the missing-hash check. -/
theorem reorg_precedence (s : State) (b : Block) (t : H256)
    (ht : s.tip = some t) (hne : b.parent_hash ≠ t) :
    s.add_block b = (BlockUpdate.Reorg, s) :=
  add_block_reorg s b t ht hne

/-- Witness for C10 at a concrete state with tip `some 101` and a block with
absent hash whose parent hash 500 differs from the tip. -/
theorem reorg_precedence_witness :
    (State.mk [wb0] (some 101)).add_block ⟨none, 500, some 77, []⟩ =
      (BlockUpdate.Reorg, State.mk [wb0] (some 101)) :=
  reorg_precedence (State.mk [wb0] (some 101)) ⟨none, 500, some 77, []⟩ 101 rfl (by decide)

/-- `SyncStatus` from `src/rollup.rs`, all fields u64. -/
structure SyncStatus where
  current_l1 : Nat
  current_l1_finalized : Nat
  head_l1 : Nat
  safe_l1 : Nat
  finalized_l1 : Nat
  unsafe_l2 : Nat
  safe_l2 : Nat
  finalized_l2 : Nat
deriving DecidableEq

/-- The body of the inner loop of `ChannelManager::process_blocks`
(src/channels.rs lines 225-240) for one successfully fetched block: if the
block carries a number, `last_stored_block_number` is set to that number and
`State::add_block` is called with its returned `BlockUpdate` discarded; a
block without a number is skipped.  Returns the new
`last_stored_block_number` and the new state. -/
def processFetchedBlock (last_stored_block_number : Nat) (s : State) (block : Block) :
    Nat × State :=
  match block.number with
  | some num => (num, (s.add_block block).2)
  | none => (last_stored_block_number, s)

/-- Rust inclusive range `a..=b` as a list (empty when `b < a`). -/
def rangeIncl (a b : Nat) : List Nat := List.range' a (b + 1 - a)

/-- One polling cycle of `ChannelManager::process_blocks` (src/channels.rs
lines 195-242) after a successful `sync_status` fetch, with the L2 node
modelled by the oracle `fetch`: if `head_l1 = 0` nothing happens; otherwise
`last_stored_block_number` is snapped to `safe_l2` when it is zero or lags
behind and every block number in `(start_block + 1)..=(end_block + 1)` is
fetched, a failed fetch being skipped.  Returns the final
`last_stored_block_number`, the final state, and the list of block numbers
requested from the L2 node. -/
def processCycle (fetch : Nat → Option Block) (sync : SyncStatus)
    (last_stored_block_number : Nat) (s : State) : Nat × State × List Nat :=
  if sync.head_l1 = 0 then (last_stored_block_number, s, [])
  else
    let start_block :=
      if last_stored_block_number = 0 ∨ last_stored_block_number < sync.safe_l2 then
        sync.safe_l2
      else
        last_stored_block_number
    let nums := rangeIncl (start_block + 1) (sync.unsafe_l2 + 1)
    let result := nums.foldl
      (fun acc n =>
        match fetch n with
        | some b => processFetchedBlock acc.1 acc.2 b
        | none => acc)
      (start_block, s)
    (result.1, result.2, nums)

def blk11 : Block := ⟨some 1011, 1010, some 11, []⟩
def blk12 : Block := ⟨some 1012, 1011, some 12, []⟩
def reorgBlk13 : Block := ⟨some 1013, 4242, some 13, []⟩

/-- Claim C2 evaluated at its failing input: after ingesting blocks 11 and 12
(tip `some 1012`), block 13 arrives with parent hash 4242 and `add_block`
reports `Reorg`; yet the ingestion loop body leaves Block State exactly as it
was — nothing is cleared — and sets `last_stored_block_number` to 13 rather
than resetting it to zero, because `process_blocks` discards the returned
`BlockUpdate`. -/
theorem reorg_not_cleared :
    (runBlocks State.new [blk11, blk12]).2 = State.mk [blk11, blk12] (some 1012) ∧
    ((State.mk [blk11, blk12] (some 1012)).add_block reorgBlk13).1 = BlockUpdate.Reorg ∧
    processFetchedBlock 12 (State.mk [blk11, blk12] (some 1012)) reorgBlk13 =
      (13, State.mk [blk11, blk12] (some 1012)) ∧
    (State.mk [blk11, blk12] (some 1012)).blocks ≠ [] ∧ (13 : Nat) ≠ 0 := by
  decide

def noHashBlk13 : Block := ⟨none, 1012, some 13, []⟩

/-- Claim C6 evaluated at its failing input: appending `noHashBlk13` (parent
hash matching the tip but hash absent) is rejected with `MissingBlockHash`,
yet the ingestion loop body still sets `last_stored_block_number` to 13: the
counter is updated before `add_block` is called and regardless of its
result, not only on `Added`. -/
theorem last_stored_updated_despite_rejection :
    ((State.mk [blk11, blk12] (some 1012)).add_block noHashBlk13).1 =
      BlockUpdate.MissingBlockHash ∧
    (processFetchedBlock 12 (State.mk [blk11, blk12] (some 1012)) noHashBlk13).1 = 13 := by
  decide

/-- The cold-start `SyncStatus` of scenario S1: `head_l1 = 100`,
`safe_l2 = 10`, `unsafe_l2 = 12`. -/
def coldSync : SyncStatus := ⟨100, 90, 100, 95, 90, 12, 10, 8⟩

/-- An L2 node consistent with `coldSync`: it serves blocks 11 and 12 and has
no block 13 (nothing above `unsafe_l2`). -/
def coldFetch : Nat → Option Block :=
  fun n => if n = 11 then some blk11 else if n = 12 then some blk12 else none

/-- Counterexample to claim C7 as stated: on the S1 cold start the ingestion
cycle requests block numbers 11, 12 and also 13 from the L2 node — the loop
range is `(start_block + 1)..=(end_block + 1)` with `end_block = unsafe_l2` —
so it does not fetch exactly blocks 11 and 12. -/
theorem cold_start_cex :
    (processCycle coldFetch coldSync 0 State.new).2.2 = [11, 12, 13] ∧
    (processCycle coldFetch coldSync 0 State.new).2.2 ≠ [11, 12] := by
  decide

/-- Claim C7 (amended): on the S1 cold start (Block State empty, first sync
status `head_l1 = 100`, `safe_l2 = 10`, `unsafe_l2 = 12`) the cycle requests
blocks 11, 12 and 13; the fetch of 13 fails (the node has nothing above
`unsafe_l2`) and is skipped, so exactly blocks 11 and 12 are ingested into
Block State and `last_stored_block_number` ends at 12. -/
theorem cold_start_ingests_eleven_twelve :
    processCycle coldFetch coldSync 0 State.new =
      (12, State.mk [blk11, blk12] (some 1012), [11, 12, 13]) := by
  decide

/-- `BlockId` from ethers: a block referenced by hash or by number. -/
inductive BlockId
  | hash (h : H256)
  | number (n : Nat)
deriving DecidableEq

/-- `TransactionID` from `src/channels.rs`: channel id and frame number. -/
structure TransactionID where
  channel_id : String
  frame_number : Nat
deriving DecidableEq

/-- `ChannelManagerError` from `src/errors.rs`.  Note the enum has no
`Exhausted` variant. -/
inductive ChannelManagerError
  | L1Reorg
  | L2Reorg
  | NotImplemented
  | ChannelClosed
  | ReceiverLock
  | SenderLock
deriving DecidableEq

/-- `ChannelManager::tx_data` (src/channels.rs lines 106-110): the body is a
TODO stub that unconditionally returns the `NotImplemented` error. -/
def ChannelManager.tx_data (_block_id : BlockId) :
    Except ChannelManagerError (Bytes × TransactionID) :=
  Except.error ChannelManagerError.NotImplemented

/-- One iteration of the loop of `ChannelManager::execute` (src/channels.rs
lines 119-139) after a `BlockId` has been received: `tx_data` is called and
its error is propagated by the `?` operator — an error return means the loop
(and with it the actor) terminates.  On success the data is sent downstream
and recorded in `pending_txs`; the result carries the new pending map
(as an association list) and the bytes sent. -/
def ChannelManager.executeStep (pending_txs : List (TransactionID × Bytes))
    (block_id : BlockId) :
    Except ChannelManagerError (List (TransactionID × Bytes) × Bytes) :=
  match ChannelManager.tx_data block_id with
  | Except.error e => Except.error e
  | Except.ok td => Except.ok (pending_txs ++ [(td.2, td.1)], td.1)

/-- Claim C4 evaluated on the code: for every received `BlockId`, `tx_data`
returns the `NotImplemented` error (not an `Exhausted` error, which does not
exist in `ChannelManagerError`), and the `execute` loop iteration propagates
that error, terminating the actor instead of continuing to the next received
`BlockId`. -/
theorem tx_data_error_terminates (pending_txs : List (TransactionID × Bytes))
    (block_id : BlockId) :
    ChannelManager.tx_data block_id = Except.error ChannelManagerError.NotImplemented ∧
    ChannelManager.executeStep pending_txs block_id =
      Except.error ChannelManagerError.NotImplemented :=
  ⟨rfl, rfl⟩

/-- `TransactionManagerError` from `src/errors.rs`. -/
inductive TransactionManagerError
  | ChannelClosed
  | ReceiverLock
  | SenderLock
  | MissingReceiver
  | MissingSender
  | SendTransactionLocked
  | MissingProvider
  | MissingSenderAddress
  | MissingL1ChainId
  | MissingL1BatchInboxAddress
  | TransactionReceiptNotFound
  | MissingSenderPrivateKey
deriving DecidableEq

/-- A JSON-RPC call issued to the L1 provider. -/
inductive RpcCall
  | getTransactionCount (sender : Nat)
  | getGasPrice
  | sendRawTransaction
deriving DecidableEq

/-- ethers `TransactionRequest`: every field optional, `TransactionRequest::new`
leaves all of them unset.  The source field `to` is spelled `to_addr` here
because `to` is a reserved word in Lean. -/
structure TransactionRequest where
  chain_id : Option Nat
  to_addr : Option Nat
  data : Option Bytes
  gas_price : Option Nat
  nonce : Option Nat
  value : Option Nat
  gas : Option Nat
deriving DecidableEq

/-- `TransactionRequest::new()`: all fields unset. -/
def TransactionRequest.new : TransactionRequest :=
  ⟨none, none, none, none, none, none, none⟩

/-- `TransactionManager::craft_transaction` (src/transactions.rs lines
261-281): query the provider for the sender's transaction count (modelled by
the oracle `nonceOf`) and the gas price (modelled by `gas_price`), then build
the request by setting `chain_id`, `to`, `data`, `gas_price` and `nonce` on a
fresh `TransactionRequest`.  The second component records the provider calls
the function issues, in order; no send-type call is among them. -/
def TransactionManager.craft_transaction (l1_chain_id : Nat)
    (l1_batch_inbox_address : Nat) (sender : Nat) (nonceOf : Nat → Nat)
    (gas_price : Nat) (bytes : Bytes) : TransactionRequest × List RpcCall :=
  let nonce := nonceOf sender
  let tx := { TransactionRequest.new with
    chain_id := some l1_chain_id
    to_addr := some l1_batch_inbox_address
    data := some bytes
    gas_price := some gas_price
    nonce := some nonce }
  (tx, [RpcCall.getTransactionCount sender, RpcCall.getGasPrice])

/-- Claim C9: for every payload, `craft_transaction` returns an unsigned
request whose `chain_id` is the configured L1 chain id, whose `to` is the
batch-inbox address, whose `data` is the payload, whose `gas_price` and
`nonce` come from the provider queries, whose value is unset — which an
ethers legacy transaction serializes as zero — and it issues no
send/broadcast RPC call. -/
theorem craft_transaction_fields (l1_chain_id l1_batch_inbox_address sender : Nat)
    (nonceOf : Nat → Nat) (gas_price : Nat) (bytes : Bytes) :
    (TransactionManager.craft_transaction l1_chain_id l1_batch_inbox_address sender
      nonceOf gas_price bytes).1.chain_id = some l1_chain_id ∧
    (TransactionManager.craft_transaction l1_chain_id l1_batch_inbox_address sender
      nonceOf gas_price bytes).1.to_addr = some l1_batch_inbox_address ∧
    (TransactionManager.craft_transaction l1_chain_id l1_batch_inbox_address sender
      nonceOf gas_price bytes).1.data = some bytes ∧
    (TransactionManager.craft_transaction l1_chain_id l1_batch_inbox_address sender
      nonceOf gas_price bytes).1.gas_price = some gas_price ∧
    (TransactionManager.craft_transaction l1_chain_id l1_batch_inbox_address sender
      nonceOf gas_price bytes).1.nonce = some (nonceOf sender) ∧
    (TransactionManager.craft_transaction l1_chain_id l1_batch_inbox_address sender
      nonceOf gas_price bytes).1.value = none ∧
    ((TransactionManager.craft_transaction l1_chain_id l1_batch_inbox_address sender
      nonceOf gas_price bytes).1.value).getD 0 = 0 ∧
    RpcCall.sendRawTransaction ∉
      (TransactionManager.craft_transaction l1_chain_id l1_batch_inbox_address sender
        nonceOf gas_price bytes).2 := by
  refine ⟨rfl, rfl, rfl, rfl, rfl, rfl, rfl, ?_⟩
  simp [TransactionManager.craft_transaction]

/-- A transaction together with the key of the wallet that signed it
(`SignerMiddleware` signs with the wallet it was constructed from). -/
structure SignedTx where
  tx : TransactionRequest
  signer_key : Nat
deriving DecidableEq

/-- ethers `TransactionReceipt`, reduced to opaque identifying fields. -/
structure TransactionReceipt where
  transaction_index : Nat
  block_number : Nat
deriving DecidableEq

/-- The wallet used for signing inside `TransactionManager::execute`
(src/transactions.rs lines 127-128): `LocalWallet::new(&mut rand::thread_rng())`,
a wallet with a freshly generated random key (modelled by `rng_key`); the
configured sender private key is received as the unused parameter
`_sender_private_key` (the body carries a TODO to construct the wallet from
it). -/
def TransactionManager.execute_wallet_key (rng_key : Nat)
    (_sender_private_key : String) : Nat :=
  rng_key

/-- `TransactionManager::send_transaction` (src/transactions.rs lines
222-255): build the signer middleware from the given wallet, send the
transaction (modelled by the oracle `broadcast`, which receives the signed
transaction and yields a pending-transaction handle), await 6 confirmations
(the oracle `confirm` receives the handle and the confirmation count and
yields the optional receipt), and fail with `TransactionReceiptNotFound`
exactly when the receipt is absent. -/
def TransactionManager.send_transaction (wallet_key : Nat) (tx : TransactionRequest)
    (broadcast : SignedTx → Except TransactionManagerError Nat)
    (confirm : Nat → Nat → Except TransactionManagerError (Option TransactionReceipt)) :
    Except TransactionManagerError TransactionReceipt := do
  let pending ← broadcast ⟨tx, wallet_key⟩
  let receipt ← confirm pending 6
  match receipt with
  | some r => pure r
  | none => Except.error TransactionManagerError.TransactionReceiptNotFound

/-- A concrete crafted transaction used to exercise `send_transaction`. -/
def sampleTx : TransactionRequest :=
  (TransactionManager.craft_transaction 1 66 9 (fun _ => 3) 50 [222, 173, 190, 239]).1

/-- A broadcast oracle whose pending-transaction handle reveals which key
signed the transaction it received. -/
def keyRevealingBroadcast : SignedTx → Except TransactionManagerError Nat :=
  fun st => Except.ok st.signer_key

/-- A confirmation oracle that reports an absent receipt when asked for
exactly 6 confirmations and a dummy receipt otherwise. -/
def confirmAbsent : Nat → Nat → Except TransactionManagerError (Option TransactionReceipt) :=
  fun _pending confirmations =>
    if confirmations = 6 then Except.ok none else Except.ok (some ⟨0, 0⟩)

/-- A confirmation oracle that always reports the given receipt. -/
def confirmWith (r : TransactionReceipt) :
    Nat → Nat → Except TransactionManagerError (Option TransactionReceipt) :=
  fun _pending _confirmations => Except.ok (some r)

/-- Claim C5 evaluated on the code: the signing wallet used by the transaction
manager is built from the fresh random key alone — for any two configured
sender private keys it is the same wallet, so the transaction is NOT signed
with the configured key; the broadcast sees a transaction signed with the
random key (here 7: the revealed handle is 7); the receipt is requested after
a 6-confirmation wait and the call fails with `TransactionReceiptNotFound`
exactly when that receipt is absent, succeeding with the receipt otherwise. -/
theorem send_transaction_random_wallet :
    (∀ (rng_key : Nat) (key1 key2 : String),
      TransactionManager.execute_wallet_key rng_key key1 =
        TransactionManager.execute_wallet_key rng_key key2) ∧
    keyRevealingBroadcast ⟨sampleTx, TransactionManager.execute_wallet_key 7 "cafe"⟩ =
      Except.ok 7 ∧
    TransactionManager.send_transaction 7 sampleTx keyRevealingBroadcast confirmAbsent =
      Except.error TransactionManagerError.TransactionReceiptNotFound ∧
    TransactionManager.send_transaction 7 sampleTx keyRevealingBroadcast
      (confirmWith ⟨3, 20⟩) = Except.ok ⟨3, 20⟩ :=
  ⟨fun _ _ _ => rfl, rfl, rfl, rfl⟩
